import Mathlib

/-!
Verification of the smartmatch listing-to-final scraping pipeline.

This file gives a shallow embedding of the core pipeline of the
repository (bedrock_scrape.py, llm_utils.py, service.py, main.py,
scrape_utils.py) and proves or refutes the frozen claims about it.

Modelling conventions:
* Python strings are Lean `String`s; Python string comparison is the
  lexicographic order on code points, which coincides with Lean's
  `String` order.
* Python whitespace stripping is modelled on the ASCII whitespace set
  (space, tab, LF, CR, VT, FF); `str.lower` and `str.isalpha` are
  modelled on ASCII, which covers every string the pipeline compares
  against (all its sentinel values are ASCII).
* External effects (HTTP fetches, LLM calls, the clock, SHA-256) are
  environment parameters: an `Option` result models a Python call that
  may raise (`none` = an exception was raised).  SHA-256 itself is an
  abstract `String → String` parameter; the claims are about *which*
  string is hashed, not about the digest function.
* Database tables are lists of rows; an insert that tolerates
  duplicate-key errors is a conditional append.
-/

namespace Smartmatch

/-- ASCII whitespace as stripped by Python's `str.strip()`. -/
def pyWhitespace (c : Char) : Bool :=
  c = ' ' || c = '\t' || c = '\n' || c = '\r' || c = '\x0b' || c = '\x0c'

/-- Strip characters satisfying `p` from both ends of a character list. -/
def stripBothList (p : Char → Bool) (l : List Char) : List Char :=
  ((l.dropWhile p).reverse.dropWhile p).reverse

/-- Python `str.strip()` (no arguments): strip whitespace from both ends. -/
def pyStrip (s : String) : String :=
  ⟨stripBothList pyWhitespace s.data⟩

/-- Python `str.strip('"\'')`: strip double and single quotes from both ends. -/
def stripQuotes (s : String) : String :=
  ⟨stripBothList (fun c => c = '"' || c = '\x27') s.data⟩

/-- Python `str.lstrip('#')`. -/
def lstripHash (s : String) : String :=
  ⟨s.data.dropWhile (fun c => c = '#')⟩

/-- Python `str.lower()` (ASCII model). -/
def pyLower (s : String) : String :=
  ⟨s.data.map Char.toLower⟩

/-- Python slicing `s[:n]` (by code points).  The length test keeps the
common short-string case in normal form without unfolding `take`. -/
def pyTake (n : Nat) (s : String) : String :=
  if s.data.length ≤ n then s else ⟨s.data.take n⟩

/-- Python truthiness of an optional string: `None` and `""` are falsy. -/
def pyTruthy : Option String → Bool
  | none => false
  | some s => s ≠ ""

/-- Python `a or b` where `a` is an optional/possibly-empty string. -/
def pyOr (a : Option String) (b : String) : String :=
  match a with
  | none => b
  | some s => if s = "" then b else s

/-- Python `str.startswith` (code-point list comparison). -/
def strStartsWith (s t : String) : Bool :=
  t.data.isPrefixOf s.data

/-- Python `str.endswith` (code-point list comparison). -/
def strEndsWith (s t : String) : Bool :=
  t.data.reverse.isPrefixOf s.data.reverse

/-- Python `a <= b` on strings: lexicographic comparison of code
points. -/
def charsLe : List Char → List Char → Bool
  | [], _ => true
  | _ :: _, [] => false
  | a :: as, b :: bs =>
    if a.toNat < b.toNat then true
    else if b.toNat < a.toNat then false
    else charsLe as bs

/-- Lexicographic `≤` on strings by code points (Python's order). -/
def pyStrLe (a b : String) : Bool :=
  charsLe a.data b.data

/-- `pat` occurs as a contiguous sublist of `l`. -/
def isInfixList (pat : List Char) : List Char → Bool
  | [] => pat.isEmpty
  | c :: rest => pat.isPrefixOf (c :: rest) || isInfixList pat rest

/-- Python `x in s` on strings: contiguous substring containment. -/
def pyInStr (a b : String) : Bool :=
  isInfixList a.data b.data

/-- One pass of Python `str.replace(pat, rep)` with structural fuel
(`pat` is nonempty at every use site). -/
def replaceAllAux (pat rep : List Char) : Nat → List Char → List Char
  | _, [] => []
  | 0, l => l
  | fuel + 1, c :: rest =>
    if pat.isPrefixOf (c :: rest) then
      rep ++ replaceAllAux pat rep fuel ((c :: rest).drop pat.length)
    else
      c :: replaceAllAux pat rep fuel rest

/-- Python `str.replace(pat, rep)` (replace every occurrence). -/
def pyReplace (s pat rep : String) : String :=
  ⟨replaceAllAux pat.data rep.data s.data.length s.data⟩

/-- First occurrence split: `breakOn pat l = some (before, after)` with
`l = before ++ pat ++ after`, scanning left to right. -/
def breakOn (pat : List Char) : List Char → Option (List Char × List Char)
  | [] => if pat = [] then some ([], []) else none
  | c :: rest =>
    if pat.isPrefixOf (c :: rest) then some ([], (c :: rest).drop pat.length)
    else
      match breakOn pat rest with
      | some (a, b) => some (c :: a, b)
      | none => none

/-- Control characters rejected by the text-safety property:
`[0x00-0x08, 0x0B, 0x0C, 0x0E-0x1F]` (exactly the class in
`sanitize_text`'s regex). -/
def isDbCtlChar (c : Char) : Bool :=
  c.val ≤ 0x08 || c.val = 0x0B || c.val = 0x0C || (0x0E ≤ c.val && c.val ≤ 0x1F)

/-- bedrock_scrape.sanitize_text on a present string: replace every
character of the control class with a space (`re.sub` with a character
class substitutes per character). -/
def sanitize_text (s : String) : String :=
  ⟨s.data.map (fun c => if isDbCtlChar c then ' ' else c)⟩

/-- bedrock_scrape.GENERIC_TITLE_SET. -/
def GENERIC_TITLE_SET : List String :=
  ["rfp", "rfa", "rfi", "request for applications", "request for application",
   "request for proposals", "request for proposal", "request for information",
   "pdf", "(pdf)", "untitled rfp", "opportunity", "solicitation"]

/-- bedrock_scrape.GENERIC_PREFIXES: the summary-preamble starts. -/
def GENERIC_STARTS : List String :=
  ["summary of rfp", "rfp summary", "i will summarize", "i\x27ll summarize",
   "this rfp", "the rfp", "summary:"]

/-- bedrock_scrape._is_generic_title, transcribed with its early returns
as a nested conditional chain. -/
def _is_generic_title (t : Option String) : Bool :=
  match t with
  | none => true
  | some t =>
    let s0 := pyLower (pyStrip t)
    if s0 = "" then true
    else
      let s := pyStrip (pyReplace (stripQuotes s0) "(pdf)" "")
      if GENERIC_TITLE_SET.contains s then true
      else if s.length < 4 then true
      else if GENERIC_STARTS.any (fun p => strStartsWith s p) then true
      else if (s.data.filter Char.isAlpha).length < 6 then true
      else false

/-- The genericity predicate exactly as the claim words it: empty, or —
after stripping quotes and the `(pdf)` marker and lowercasing — shorter
than 6 characters, or in the boilerplate set, or starting with a
summary-preamble phrase.  (Spec-side definition, for comparison with
`_is_generic_title`.) -/
def claimGenericSpec (t : Option String) : Bool :=
  match t with
  | none => true
  | some t =>
    let s0 := pyLower (pyStrip t)
    if s0 = "" then true
    else
      let s := pyStrip (pyReplace (stripQuotes s0) "(pdf)" "")
      (s.length < 6 : Bool) || GENERIC_TITLE_SET.contains s ||
        GENERIC_STARTS.any (fun p => strStartsWith s p)

/-- `_is_generic_title` with its early-return chain flattened to a
disjunction: the amended form of the genericity rule (threshold 4, plus
the fewer-than-six-letters test the claim omits). -/
def amendedGenericSpec (t : Option String) : Bool :=
  match t with
  | none => true
  | some t =>
    let s0 := pyLower (pyStrip t)
    if s0 = "" then true
    else
      let s := pyStrip (pyReplace (stripQuotes s0) "(pdf)" "")
      GENERIC_TITLE_SET.contains s || (s.length < 4 : Bool) ||
        GENERIC_STARTS.any (fun p => strStartsWith s p) ||
        ((s.data.filter Char.isAlpha).length < 6 : Bool)

/-- bedrock_scrape._extract_title_from_summary: scan the first eight
nonblank (stripped) lines of the summary for a usable title. -/
def extractTitleAux : List String → Option String
  | [] => none
  | l :: rest =>
    let raw := pyStrip (lstripHash l)
    let low := pyLower raw
    if GENERIC_STARTS.any (fun p => strStartsWith low p) then extractTitleAux rest
    else
      let viaColon : Option String :=
        match breakOn [':'] raw.data with
        | some (_, right) =>
          let cand := pyStrip ⟨right⟩
          if cand ≠ "" && !_is_generic_title (some cand) &&
              decide (6 ≤ cand.length) && decide (cand.length ≤ 200) then
            some (pyTake 200 cand)
          else none
        | none => none
      match viaColon with
      | some c => some c
      | none =>
        if !_is_generic_title (some raw) &&
            decide (6 ≤ raw.length) && decide (raw.length ≤ 200) then
          some (pyTake 200 raw)
        else extractTitleAux rest

/-- bedrock_scrape._extract_title_from_summary (splitlines modelled as
splitting on newline; `\r` is removed by the per-line strip). -/
def _extract_title_from_summary (summary : String) : Option String :=
  extractTitleAux
    (((summary.splitOn "\n").filter (fun l => pyStrip l ≠ "")).map pyStrip
       |>.take 8)

/-- Simplified `urllib.parse.urlparse` covering the absolute and
relative URL shapes the pipeline handles: scheme before `://`, netloc
up to the next `/`, `?` or `#`, path up to `?` or `#`. -/
structure UrlParts where
  scheme : String
  netloc : String
  path : String
  deriving DecidableEq, Repr

def pyUrlparse (u : String) : UrlParts :=
  match breakOn "://".data u.data with
  | some (sch, rest) =>
    let netloc := rest.takeWhile (fun c => c ≠ '/' && c ≠ '?' && c ≠ '#')
    let rest2 := rest.drop netloc.length
    let path := rest2.takeWhile (fun c => c ≠ '?' && c ≠ '#')
    ⟨⟨sch⟩, ⟨netloc⟩, ⟨path⟩⟩
  | none =>
    ⟨"", "", ⟨u.data.takeWhile (fun c => c ≠ '?' && c ≠ '#')⟩⟩

/-- Python `str.rstrip('/')`. -/
def rstripSlash (s : String) : String :=
  ⟨(s.data.reverse.dropWhile (fun c => c = '/')).reverse⟩

/-- bedrock_scrape.normalize_url: drop query/fragment, lowercase the
path, rebuild `scheme://netloc + path`. -/
def normalize_url (u : String) : String :=
  let p := pyUrlparse u
  p.scheme ++ "://" ++ p.netloc ++ pyLower (rstripSlash p.path)

/-- scrape_utils.is_pdf: the parsed path, lowercased, ends in `.pdf`. -/
def is_pdf (u : String) : Bool :=
  strEndsWith (pyLower (pyUrlparse u).path) ".pdf"

/-! ## Data model: rows and the upsert environment -/

/-- bedrock_scrape.MAX_DETAIL_TEXT_CHARS (default). -/
def MAX_DETAIL_TEXT_CHARS : Nat := 400000

/-- An anchor descriptor as produced by gather_links (only the fields
upsert_new_items reads; a missing key is `none`). -/
structure Link where
  text : Option String
  href : Option String
  deriving DecidableEq, Repr

/-- An item proposed by the listing LLM (`detail_link_index` is `none`
when the key is absent or not an `int`). -/
structure Item where
  title : Option String
  url : Option String
  detail_link_index : Option Int
  deriving DecidableEq, Repr

/-- A row of public.processed_rfps. -/
structure ProcessedRow where
  hash : String
  title : String
  url : String
  site : String
  processed_at : String
  detail_content : Option String
  ai_summary : Option String
  pdf_content : Option (List Nat)
  deriving DecidableEq, Repr

/-- A row of public.rfp_exclusions. -/
structure ExclusionRow where
  hash : String
  title : String
  site : String
  listing_url : String
  detail_url : Option String
  reason : String
  decided_at : String
  deriving DecidableEq, Repr

/-- An entry of the `new_rows` result list built by upsert_new_items. -/
structure NewRow where
  title : String
  url : String
  detail_source_url : String
  hash : String
  has_detail : Bool
  ai_summary : Option String
  deriving DecidableEq, Repr

/-- The raw JSON dict returned by the FINAL-page LLM call (fields are
`none` when absent). -/
structure FinalRaw where
  status : Option String
  reason : Option String
  deadline_iso : Option String
  deriving DecidableEq, Repr

/-- The normalized dict returned by llm_utils.classify_final_page. -/
structure FinalCheck where
  status : String
  reason : String
  deadline_iso : Option String
  deriving DecidableEq, Repr

/-- A requests.Response as inspected by the PDF confirm/fetch block. -/
structure PdfResp where
  status_code : Int
  content : List Nat
  content_type : String
  deriving DecidableEq, Repr

/-- External world of upsert_new_items.  Each field embeds one
effectful call; `none` models a raised exception. -/
structure ScrapeEnv where
  /-- hashlib.sha256(...).hexdigest() as an abstract digest function. -/
  sha256 : String → String
  /-- llm_utils.today_str(). -/
  today : String
  /-- os.getenv("FINAL_DATE_ENFORCE", "true"). -/
  finalDateEnforce : String
  /-- time.strftime("%Y-%m-%dT%H:%M:%SZ", time.gmtime()). -/
  nowIso : String
  /-- navigate_to_final(detail_src, ..., initial_title, initial_link_text):
  the raw `(final_url, final_title, final_text)` triple. -/
  navigate : String → String → Option String → Option String × Option String × Option String
  /-- detail_extractor.extract_detail(url): `(text, pdf_url)`, or an
  exception. -/
  extractDetail : String → Option (Option String × Option String)
  /-- The FINAL-prompt LLM call plus JSON parse inside
  classify_final_page, keyed on `(page_text, page_url)`. -/
  classify : String → String → Option FinalRaw
  /-- The scope LLM call plus JSON parse, keyed on the truncated
  `(title, url, content)` it is prompted with; `some b` is
  `bool(sc.get("in_scope", False))`. -/
  scope : String → String → String → Option Bool
  /-- requests.get(detected_pdf_url, ...). -/
  pdfGet : String → Option PdfResp
  /-- llm_utils.summarize_rfp(detail_content). -/
  summarize : String → Option String

/-- The in-transaction state threaded through the item loop of
upsert_new_items: both tables, the per-run summary cache and the
accumulated result list. -/
structure UpsertState where
  exclusions : List ExclusionRow
  processed : List ProcessedRow
  summaryCache : List (String × String)
  newRows : List NewRow
  deriving DecidableEq, Repr

/-- Which insert_exclusion call site fired (both are after navigation). -/
inductive ExclStage where
  | deadline
  | scopeGate
  deriving DecidableEq, Repr

/-- Instrumentation events recorded by the embedding: the final-page
classification outcome and every table-insert call. -/
inductive UpsertEv where
  | classified (fc : FinalCheck)
  | exclusionInsert (stage : ExclStage) (e : ExclusionRow)
  | processedInsert (r : ProcessedRow)
  deriving DecidableEq, Repr

/-- bedrock_scrape.is_excluded: exact hash lookup. -/
def is_excluded (excl : List ExclusionRow) (h : String) : Bool :=
  excl.any (fun e => e.hash = h)

/-- bedrock_scrape.insert_exclusion: insert, silently ignoring a
duplicate-key failure. -/
def insert_exclusion (excl : List ExclusionRow) (e : ExclusionRow) : List ExclusionRow :=
  if excl.any (fun e0 => e0.hash = e.hash) then excl else excl ++ [e]

/-- The exclusion row built at both final-stage call sites:
`h_excl = sha256(title + final_url)`, `detail_url = final_url`. -/
def mkExcl (env : ScrapeEnv) (title site_name listing_url final_url reason : String) :
    ExclusionRow :=
  ⟨env.sha256 (title ++ final_url), title, site_name, listing_url,
   some final_url, reason, env.nowIso⟩

/-- llm_utils.classify_final_page: run the FINAL prompt and normalize
`status` and `deadline_iso`; on any exception return the `unknown`
fallback dict. -/
def classify_final_page (env : ScrapeEnv) (page_text page_url : String) : FinalCheck :=
  match env.classify page_text page_url with
  | none => ⟨"unknown", "classification error", none⟩
  | some d =>
    let status := pyLower (d.status.getD "")
    let reason := d.reason.getD ""
    let dl : Option String :=
      match d.deadline_iso with
      | none => none
      | some s0 =>
        if s0 = "" then none
        else
          let s := pyStrip s0
          if s = "" then none
          else if 10 ≤ s.length then some (pyTake 10 s) else some s
    ⟨status, reason, dl⟩

/-- os.getenv("FINAL_DATE_ENFORCE", "true").strip().lower() in ("true")
— note `("true")` is the *string* "true", so this is a substring test. -/
def finalDateEnforceBool (env : ScrapeEnv) : Bool :=
  pyInStr (pyLower (pyStrip env.finalDateEnforce)) "true"

/-- The effective status computed by upsert_new_items: the classified
status, forced to "expired" when enforcement is on and `deadline_iso`
is a present 10-character date lexicographically ≤ today. -/
def upsertEffectiveStatus (env : ScrapeEnv) (fc : FinalCheck) : String :=
  let status_lower := pyLower fc.status
  if finalDateEnforceBool env then
    match fc.deadline_iso with
    | some d =>
      if d ≠ "" && decide (d.length = 10) && pyStrLe d env.today then "expired"
      else status_lower
    | none => status_lower
  else status_lower

/-- [0x25, 0x50, 0x44, 0x46, 0x2D] = b"%PDF-". -/
def pdfMagic : List Nat := [0x25, 0x50, 0x44, 0x46, 0x2D]

/-- The robust PDF confirm/fetch block of upsert_new_items (the second
extract_detail call): returns `(pdf_bytes, final_text, final_url)`;
every exception leaves all three unchanged. -/
def pdfConfirm (env : ScrapeEnv) (final_url final_text : String) :
    Option (List Nat) × String × String :=
  match env.extractDetail final_url with
  | none => (none, final_text, final_url)
  | some pr =>
    let parsed_text := pr.1
    let detected_pdf_url := pr.2
    if pyTruthy detected_pdf_url then
      let pu := detected_pdf_url.getD ""
      match env.pdfGet pu with
      | none => (none, final_text, final_url)
      | some r =>
        let pdf_bytes :=
          if r.status_code = 200 && !r.content.isEmpty &&
              (pyInStr "application/pdf" (pyLower r.content_type) ||
               decide (r.content.take 5 = pdfMagic)) then
            some r.content
          else none
        if pyTruthy parsed_text then (pdf_bytes, parsed_text.getD "", pu)
        else (pdf_bytes, final_text, final_url)
    else (none, final_text, final_url)

/-- The summary computation with the per-run cache: returns
`(ai_summary, cache)`.  A summarize exception leaves `ai_summary`
as `None`; only truthy summaries are cached. -/
def summaryStep (env : ScrapeEnv) (cache : List (String × String))
    (detail_content : String) : Option String × List (String × String) :=
  if pyStrip detail_content ≠ "" then
    let content_hash := env.sha256 detail_content
    match cache.lookup content_hash with
    | some v => (some v, cache)
    | none =>
      match env.summarize detail_content with
      | none => (none, cache)
      | some s => (some s, if s ≠ "" then (content_hash, s) :: cache else cache)
  else (none, cache)

/-- The two title-override passes applied just before the insert. -/
def titleOverride (ai_summary : Option String) (chosen listing : String) : String :=
  let ct1 :=
    if pyTruthy ai_summary && _is_generic_title (some chosen) then
      if !_is_generic_title (some listing) then listing
      else
        match _extract_title_from_summary (ai_summary.getD "") with
        | some cand =>
          if cand ≠ "" && !_is_generic_title (some cand) then cand else chosen
        | none => chosen
    else chosen
  if _is_generic_title (some ct1) && !_is_generic_title (some listing) then listing
  else ct1

/-- The values dict of the final processed_rfps insert:
`hash = sha256(final_url)`, sanitized `detail_content` (empty collapses
to NULL via `or None`), `ai_summary` sanitized when truthy. -/
def mkProcessedRow (env : ScrapeEnv) (site_name chosen_title final_url : String)
    (detail_content0 : String) (ai_summary : Option String)
    (pdf_bytes : Option (List Nat)) : ProcessedRow :=
  { hash := env.sha256 final_url
    title := chosen_title
    url := final_url
    site := site_name
    processed_at := env.nowIso
    detail_content :=
      (if sanitize_text detail_content0 = "" then none
       else some (sanitize_text detail_content0))
    ai_summary :=
      (match ai_summary with
       | none => none
       | some s => if s ≠ "" then some (sanitize_text s) else some s)
    pdf_content := pdf_bytes }

/-- The post-navigation tail of the upsert_new_items loop body: deadline
gate, scope gate, PDF confirm, URL dedup, summary, title selection,
sanitization and the final insert. -/
def finalStage (env : ScrapeEnv) (site_name page_url : String) (st : UpsertState)
    (title listing_title : String) (final_title : Option String)
    (final_url final_text : String) : UpsertState × List UpsertEv :=
  let fc := classify_final_page env final_text final_url
  let status_lower := upsertEffectiveStatus env fc
  if status_lower = "expired" || status_lower = "unknown" then
    let e := mkExcl env title site_name page_url final_url
      (if status_lower = "expired" then "expired" else "unknown")
    ({ st with exclusions := insert_exclusion st.exclusions e },
     [.classified fc, .exclusionInsert .deadline e])
  else
    let llm_ok :=
      match env.scope (pyTake 300 (pyOr final_title title)) final_url
          (pyTake 12000 final_text) with
      | none => false
      | some b => b
    if !llm_ok then
      let e := mkExcl env title site_name page_url final_url "out_of_scope"
      ({ st with exclusions := insert_exclusion st.exclusions e },
       [.classified fc, .exclusionInsert .scopeGate e])
    else
      let chosen_title0 :=
        match final_title with
        | none => listing_title
        | some s => if s = "" then listing_title else pyStrip s
      let conf := pdfConfirm env final_url final_text
      let pdf_bytes := conf.1
      let final_text2 := conf.2.1
      let final_url2 := conf.2.2
      if st.processed.any (fun p => p.url = final_url2) then
        (st, [.classified fc])
      else
        let detail_content0 := pyTake MAX_DETAIL_TEXT_CHARS final_text2
        let sres := summaryStep env st.summaryCache detail_content0
        let ai_summary := sres.1
        let chosen_title := titleOverride ai_summary chosen_title0 listing_title
        let row := mkProcessedRow env site_name chosen_title final_url2
          detail_content0 ai_summary pdf_bytes
        let nr : NewRow :=
          ⟨chosen_title, final_url2, final_url2, row.hash,
           row.detail_content.isSome, row.ai_summary⟩
        let st' : UpsertState :=
          { st with
            processed := st.processed ++ [row]
            summaryCache := sres.2
            newRows := st.newRows ++ [nr] }
        (st', [.classified fc, .processedInsert row])

/-- The validated data the loop body extracts from an item before
navigating (none = one of the `continue` guards fired). -/
structure PreNav where
  title : String
  url : String
  listing_title : String
  detail_src : String
  linkText : Option String
  deriving DecidableEq, Repr

/-- The validation prelude of the upsert loop body: non-empty title and
url, an in-range integer `detail_link_index`, a non-empty href that
does not canonicalize to the listing URL, and the authoritative listing
title taken from the anchor text when it is non-generic. -/
def preNavCheck (page_url : String) (links : List Link) (item : Item) : Option PreNav :=
  let title := pyStrip (item.title.getD "")
  let url := pyStrip (item.url.getD "")
  if title = "" || url = "" then none
  else
    match item.detail_link_index with
    | none => none
    | some idx =>
      if !(decide (0 ≤ idx) && decide (idx < (links.length : Int))) then none
      else
        let lk := links.getD idx.toNat ⟨none, none⟩
        let detail_src := lk.href.getD ""
        if detail_src = "" then none
        else if normalize_url detail_src = normalize_url page_url then none
        else
          let anchor_text := pyStrip (lk.text.getD "")
          let listing_title :=
            if anchor_text ≠ "" && !_is_generic_title (some anchor_text) then
              anchor_text
            else title
          some ⟨title, url, listing_title, detail_src, lk.text⟩

/-- One iteration of the item loop of upsert_new_items: validation,
early exclusion check, navigation, PDF re-extraction and the final
stage.  Every `continue` yields the unchanged state and no events. -/
def processItem (env : ScrapeEnv) (site_name page_url : String) (links : List Link)
    (st : UpsertState) (item : Item) : UpsertState × List UpsertEv :=
  match preNavCheck page_url links item with
  | none => (st, [])
  | some p =>
    if is_excluded st.exclusions (env.sha256 (p.title ++ p.url)) then (st, [])
    else
      let nav := env.navigate p.detail_src p.listing_title p.linkText
      if !(pyTruthy nav.1 && pyTruthy nav.2.2) then (st, [])
      else
        let final_url0 := nav.1.getD ""
        let final_text0 := nav.2.2.getD ""
        let final_title1 :=
          if (!pyTruthy nav.2.1 || _is_generic_title nav.2.1) &&
              !_is_generic_title (some p.listing_title) then
            some p.listing_title
          else nav.2.1
        if is_pdf final_url0 then
          match env.extractDetail final_url0 with
          | none => (st, [])
          | some pr =>
            let ft := if pyTruthy pr.1 then pr.1.getD "" else final_text0
            let fu := if pyTruthy pr.2 then pr.2.getD "" else final_url0
            finalStage env site_name page_url st p.title p.listing_title
              final_title1 fu ft
        else
          finalStage env site_name page_url st p.title p.listing_title
            final_title1 final_url0 final_text0

/-- bedrock_scrape.upsert_new_items: fold the item loop over all items
inside one transaction, concatenating the instrumentation events. -/
def upsertNewItems (env : ScrapeEnv) (site_name page_url : String)
    (links : List Link) (st0 : UpsertState) (items : List Item) :
    UpsertState × List UpsertEv :=
  items.foldl
    (fun acc item =>
      let r := processItem env site_name page_url links acc.1 item
      (r.1, acc.2 ++ r.2))
    (st0, [])

/-! ## Concrete fixtures

A small concrete worlds family used to instantiate the theorems: an
identity digest (the claims are about which string is hashed), one
listing link, one proposed item, an empty database. -/

/-- Empty initial transaction state (fresh tables, empty cache). -/
def st0 : UpsertState := ⟨[], [], [], []⟩

def pageUrlC : String := "https://ex.org/listing"

def linksC : List Link :=
  [⟨some "Health Data Modernization RFP details", some "https://ex.org/detail1"⟩]

def itemC : Item :=
  ⟨some "RFP X", some "https://ex.org/item1", some 0⟩

/-- A base environment: navigation succeeds onto a non-PDF final page,
the final check is a future-dated "active", scope passes, summarize
raises (so `ai_summary` stays `None`). -/
def envOk : ScrapeEnv where
  sha256 := fun s => s
  today := "2025-06-01"
  finalDateEnforce := "true"
  nowIso := "2025-06-01T00:00:00Z"
  navigate := fun _ _ _ =>
    (some "https://ex.org/final1", some "Statewide Health Data Systems RFP",
     some "Body: statewide health data systems modernization.")
  extractDetail := fun _ => none
  classify := fun _ _ => some ⟨some "active", some "future deadline", some "2999-12-31"⟩
  scope := fun _ _ _ => some true
  pdfGet := fun _ => none
  summarize := fun _ => none

/-- envOk with a past classified deadline: the enforcement branch must
force "expired". -/
def envExpired : ScrapeEnv :=
  { envOk with
    classify := fun _ _ => some ⟨some "active", some "past deadline", some "2020-01-03"⟩ }

/-- envOk with the scope LLM call raising (call/parse failure). -/
def envScopeFail : ScrapeEnv :=
  { envOk with scope := fun _ _ _ => none }

/-- envOk with a navigation title containing the control byte 0x01. -/
def envCtl : ScrapeEnv :=
  { envOk with
    navigate := fun _ _ _ =>
      (some "https://ex.org/final1", some "Health\x01 Data Modernization RFP",
       some "Body:\x02 statewide health data systems.") }

/-! ## Structural lemmas about the upsert loop -/

/-- Every outcome of the loop body is either an untouched-state skip or
an outcome of the post-navigation final stage run on the same state. -/
theorem processItem_cases (env : ScrapeEnv) (site page : String) (links : List Link)
    (st : UpsertState) (item : Item) (P : UpsertState × List UpsertEv → Prop)
    (h0 : P (st, []))
    (hf : ∀ title listing_title final_title final_url final_text,
      P (finalStage env site page st title listing_title final_title
           final_url final_text)) :
    P (processItem env site page links st item) := by
  simp only [processItem]
  repeat' split
  all_goals first
    | exact h0
    | apply hf

/-- Every event of a whole upsert run is an event of some single
loop-body run. -/
theorem upsert_ev_mem (env : ScrapeEnv) (site page : String) (links : List Link) :
    ∀ (items : List Item) (acc : UpsertState × List UpsertEv) (ev : UpsertEv),
      ev ∈ (items.foldl
        (fun acc item =>
          let r := processItem env site page links acc.1 item
          (r.1, acc.2 ++ r.2)) acc).2 →
      ev ∈ acc.2 ∨
        ∃ st item, item ∈ items ∧ ev ∈ (processItem env site page links st item).2 := by
  intro items
  induction items with
  | nil => intro acc ev h; exact Or.inl h
  | cons i rest ih =>
    intro acc ev h
    simp only [List.foldl_cons] at h
    rcases ih _ ev h with h' | ⟨st, item, hm, hev⟩
    · rcases List.mem_append.mp h' with h1 | h2
      · exact Or.inl h1
      · exact Or.inr ⟨acc.1, i, List.mem_cons_self _ _, h2⟩
    · exact Or.inr ⟨st, item, List.mem_cons_of_mem _ hm, hev⟩

/-- Per-branch hash shape of every event of one final-stage run. -/
theorem finalStage_hashes (env : ScrapeEnv) (site page : String) (st : UpsertState)
    (t lt : String) (ft : Option String) (fu ftx : String) :
    (∀ r, UpsertEv.processedInsert r ∈
        (finalStage env site page st t lt ft fu ftx).2 →
      r.hash = env.sha256 r.url) ∧
    (∀ stage e, UpsertEv.exclusionInsert stage e ∈
        (finalStage env site page st t lt ft fu ftx).2 →
      e.detail_url.isSome ∧ e.hash = env.sha256 (e.title ++ e.detail_url.getD "")) := by
  constructor
  · intro r hmem
    simp only [finalStage] at hmem
    repeat' split at hmem
    all_goals simp_all [mkExcl, mkProcessedRow]
  · intro stage e hmem
    simp only [finalStage] at hmem
    repeat' split at hmem
    all_goals simp_all [mkExcl, mkProcessedRow]

/-- Hash shapes lifted to one loop-body run. -/
theorem processItem_hashes (env : ScrapeEnv) (site page : String) (links : List Link)
    (st : UpsertState) (item : Item) :
    (∀ r, UpsertEv.processedInsert r ∈
        (processItem env site page links st item).2 →
      r.hash = env.sha256 r.url) ∧
    (∀ stage e, UpsertEv.exclusionInsert stage e ∈
        (processItem env site page links st item).2 →
      e.detail_url.isSome ∧ e.hash = env.sha256 (e.title ++ e.detail_url.getD "")) := by
  apply processItem_cases env site page links st item
    (fun res =>
      (∀ r, UpsertEv.processedInsert r ∈ res.2 → r.hash = env.sha256 r.url) ∧
      (∀ stage e, UpsertEv.exclusionInsert stage e ∈ res.2 →
        e.detail_url.isSome ∧ e.hash = env.sha256 (e.title ++ e.detail_url.getD "")))
  · constructor
    · intro r hmem; simp at hmem
    · intro stage e hmem; simp at hmem
  · intro t lt ft fu ftx
    exact finalStage_hashes env site page st t lt ft fu ftx

/-- C1 (Hash stability).  Every processed_rfps row inserted by
upsert_new_items carries `hash = SHA-256(url)` where `url` is the final
resolved URL of the row, and every rfp_exclusions row it inserts is a
final-stage (post-navigation) row carrying
`hash = SHA-256(title ++ final_url)` with `detail_url = final_url`.
The pre-navigation check only *reads* the exclusions table (it inserts
nothing), so the claim's clause about rows inserted pre-navigation
holds vacuously: both insert_exclusion call sites are after
navigation, as the `stage` tag records. -/
theorem c1_hash_stability (env : ScrapeEnv) (site page : String) (links : List Link)
    (s0 : UpsertState) (items : List Item) :
    (∀ r, UpsertEv.processedInsert r ∈
        (upsertNewItems env site page links s0 items).2 →
      r.hash = env.sha256 r.url) ∧
    (∀ stage e, UpsertEv.exclusionInsert stage e ∈
        (upsertNewItems env site page links s0 items).2 →
      e.detail_url.isSome ∧ e.hash = env.sha256 (e.title ++ e.detail_url.getD "")) := by
  constructor
  · intro r hmem
    rcases upsert_ev_mem env site page links items (s0, []) _ hmem with h | ⟨st, item, _, hev⟩
    · simp at h
    · exact (processItem_hashes env site page links st item).1 r hev
  · intro stage e hmem
    rcases upsert_ev_mem env site page links items (s0, []) _ hmem with h | ⟨st, item, _, hev⟩
    · simp at h
    · exact (processItem_hashes env site page links st item).2 stage e hev

/-- The processed row inserted by the fixture run. -/
def rowOkC : ProcessedRow :=
  ⟨"https://ex.org/final1", "Statewide Health Data Systems RFP",
   "https://ex.org/final1", "siteA", "2025-06-01T00:00:00Z",
   some "Body: statewide health data systems modernization.", none, none⟩

/-- C1 witness: a concrete run inserts `rowOkC` and its hash is the
digest of its final URL. -/
theorem c1_hash_stability_witness :
    UpsertEv.processedInsert rowOkC ∈
      (upsertNewItems envOk "siteA" pageUrlC linksC st0 [itemC]).2 ∧
    rowOkC.hash = envOk.sha256 rowOkC.url :=
  ⟨by decide,
   (c1_hash_stability envOk "siteA" pageUrlC linksC st0 [itemC]).1 rowOkC (by decide)⟩

/-! ## C7: text safety -/

/-- sanitize_text output never contains a control character of the
rejected class. -/
theorem sanitize_text_clean (s : String) :
    ∀ c ∈ (sanitize_text s).data, isDbCtlChar c = false := by
  intro c hc
  simp only [sanitize_text, List.mem_map] at hc
  obtain ⟨x, _, rfl⟩ := hc
  by_cases h : isDbCtlChar x = true
  · rw [if_pos h]; decide
  · rw [if_neg h]; simpa using h

/-- Option-level cleanliness: `none` is clean, `some s` is clean when
`s` has no rejected character. -/
def optClean (o : Option String) : Prop :=
  ∀ c ∈ (o.getD "").data, isDbCtlChar c = false

theorem optClean_none : optClean none :=
  fun c hc => absurd hc (List.not_mem_nil c)

theorem optClean_empty : optClean (some "") :=
  fun c hc => absurd hc (List.not_mem_nil c)

theorem optClean_some_san (s : String) : optClean (some (sanitize_text s)) :=
  fun c hc => sanitize_text_clean s c hc

/-- Both text columns of the insert values dict are clean. -/
theorem mkProcessedRow_clean (env : ScrapeEnv) (site ct fu dc : String)
    (ai : Option String) (pb : Option (List Nat)) :
    optClean (mkProcessedRow env site ct fu dc ai pb).detail_content ∧
    optClean (mkProcessedRow env site ct fu dc ai pb).ai_summary := by
  constructor
  · dsimp only [mkProcessedRow]
    split
    · exact optClean_none
    · exact optClean_some_san _
  · dsimp only [mkProcessedRow]
    cases ai with
    | none => exact optClean_none
    | some s =>
      dsimp only []
      split
      · exact optClean_some_san s
      · rename_i h
        obtain rfl : s = "" := by simpa using h
        exact optClean_empty

/-- The detail_content and ai_summary columns of every row inserted by
one final-stage run are sanitized. -/
theorem finalStage_text_safety (env : ScrapeEnv) (site page : String) (st : UpsertState)
    (t lt : String) (ft : Option String) (fu ftx : String) :
    ∀ r, UpsertEv.processedInsert r ∈
        (finalStage env site page st t lt ft fu ftx).2 →
      optClean r.detail_content ∧ optClean r.ai_summary := by
  intro r hmem
  simp only [finalStage] at hmem
  repeat' split at hmem
  all_goals
    simp only [List.mem_cons, List.mem_singleton, List.not_mem_nil, or_false] at hmem
  all_goals
    first
      | exact UpsertEv.noConfusion hmem
      | (rcases hmem with h | h
         · exact UpsertEv.noConfusion h
         · first
             | exact UpsertEv.noConfusion h
             | (obtain rfl : r = _ := by injection h
                exact mkProcessedRow_clean _ _ _ _ _ _ _))

/-- C7 counterexample (title is stored unsanitized): a concrete run
whose navigation title carries the control byte 0x01 inserts a
processed_rfps row whose `title` still contains it. -/
def rowCtlC : ProcessedRow :=
  ⟨"https://ex.org/final1", "Health\x01 Data Modernization RFP",
   "https://ex.org/final1", "siteA", "2025-06-01T00:00:00Z",
   some "Body:  statewide health data systems.", none, none⟩

theorem c7_text_safety_counterexample :
    UpsertEv.processedInsert rowCtlC ∈
      (upsertNewItems envCtl "siteA" pageUrlC linksC st0 [itemC]).2 ∧
    rowCtlC.title.data.any isDbCtlChar = true := by
  constructor
  · decide
  · decide

/-- C7 amended: upsert_new_items sanitizes `detail_content` and
`ai_summary` before the insert, so those two stored text columns never
contain a character of `[0x00-0x08, 0x0B, 0x0C, 0x0E-0x1F]`; the
`title` column, however, is stored without sanitization (see the
counterexample). -/
theorem c7_text_safety_amended (env : ScrapeEnv) (site page : String)
    (links : List Link) (s0 : UpsertState) (items : List Item) :
    ∀ r, UpsertEv.processedInsert r ∈
        (upsertNewItems env site page links s0 items).2 →
      optClean r.detail_content ∧ optClean r.ai_summary := by
  intro r hmem
  rcases upsert_ev_mem env site page links items (s0, []) _ hmem with h | ⟨st, item, _, hev⟩
  · simp at h
  · revert hev
    refine processItem_cases env site page links st item
      (fun res => UpsertEv.processedInsert r ∈ res.2 →
        optClean r.detail_content ∧ optClean r.ai_summary) ?_ ?_
    · intro h; simp at h
    · intro t lt ft fu ftx h
      exact finalStage_text_safety env site page st t lt ft fu ftx r h

/-- C7 amended witness: the fixture run's row has clean detail and
summary columns. -/
theorem c7_text_safety_amended_witness :
    optClean rowOkC.detail_content ∧ optClean rowOkC.ai_summary :=
  c7_text_safety_amended envOk "siteA" pageUrlC linksC st0 [itemC] rowOkC (by decide)

/-! ## C3: deadline invariant -/

/-- When enforcement is on (env value "true") and the classification
carries a present 10-character deadline lexicographically ≤ today, the
effective status is forced to "expired". -/
theorem effectiveStatus_expired (env : ScrapeEnv) (fc : FinalCheck) (d : String)
    (henf : env.finalDateEnforce = "true") (hd : fc.deadline_iso = some d)
    (hl : d.length = 10) (hle : pyStrLe d env.today = true) :
    upsertEffectiveStatus env fc = "expired" := by
  have hb : finalDateEnforceBool env = true := by
    simp only [finalDateEnforceBool, henf]; decide
  have hne : d ≠ "" := by
    intro h; subst h; simp [String.length] at hl
  have hcond : (decide (d ≠ "") && decide (d.length = 10) && pyStrLe d env.today) = true := by
    simp [hne, hl, hle]
  simp only [upsertEffectiveStatus, hb, hd, hcond, if_true]

/-- The classification event of a final-stage run records exactly the
classify_final_page result on the final text and URL. -/
theorem finalStage_classified (env : ScrapeEnv) (site page : String) (st : UpsertState)
    (t lt : String) (ft : Option String) (fu ftx : String) :
    ∀ fc, UpsertEv.classified fc ∈ (finalStage env site page st t lt ft fu ftx).2 →
      fc = classify_final_page env ftx fu := by
  intro fc hmem
  simp only [finalStage] at hmem
  repeat' split at hmem
  all_goals simp_all

/-- The expired branch of the final stage, as an equation. -/
theorem finalStage_expired_eq (env : ScrapeEnv) (site page : String) (st : UpsertState)
    (t lt : String) (ft : Option String) (fu ftx : String)
    (hst : upsertEffectiveStatus env (classify_final_page env ftx fu) = "expired") :
    finalStage env site page st t lt ft fu ftx =
      ({ st with exclusions :=
          insert_exclusion st.exclusions (mkExcl env t site page fu "expired") },
       [.classified (classify_final_page env ftx fu),
        .exclusionInsert .deadline (mkExcl env t site page fu "expired")]) := by
  simp only [finalStage, hst]
  simp

/-- C3 (Deadline invariant).  For one upsert loop-body run with
`FINAL_DATE_ENFORCE="true"` (the default), if the final-page
classification (the run's recorded `classified` event) carries a
10-character `deadline_iso` lexicographically ≤ today — in particular
every valid ISO date that is ≤ today — then no processed_rfps row is
inserted for the item, an rfp_exclusions insert with reason "expired"
is issued instead, and the item is skipped (it contributes nothing to
`new_rows`). -/
theorem c3_deadline_invariant (env : ScrapeEnv) (site page : String)
    (links : List Link) (st : UpsertState) (item : Item) (d : String)
    (henf : env.finalDateEnforce = "true") :
    ∀ fc, UpsertEv.classified fc ∈ (processItem env site page links st item).2 →
      fc.deadline_iso = some d → d.length = 10 → pyStrLe d env.today = true →
      (∀ r, UpsertEv.processedInsert r ∉ (processItem env site page links st item).2) ∧
      (∃ e, UpsertEv.exclusionInsert .deadline e ∈
          (processItem env site page links st item).2 ∧ e.reason = "expired") ∧
      (processItem env site page links st item).1.newRows = st.newRows := by
  refine processItem_cases env site page links st item
    (fun res =>
      ∀ fc, UpsertEv.classified fc ∈ res.2 →
        fc.deadline_iso = some d → d.length = 10 → pyStrLe d env.today = true →
        (∀ r, UpsertEv.processedInsert r ∉ res.2) ∧
        (∃ e, UpsertEv.exclusionInsert .deadline e ∈ res.2 ∧ e.reason = "expired") ∧
        res.1.newRows = st.newRows) ?_ ?_
  · intro fc hmem; simp at hmem
  · intro t lt ft fu ftx fc hmem hd hl hle
    obtain rfl := finalStage_classified env site page st t lt ft fu ftx fc hmem
    have hst := effectiveStatus_expired env _ d henf hd hl hle
    rw [finalStage_expired_eq env site page st t lt ft fu ftx hst]
    refine ⟨?_, ⟨mkExcl env t site page fu "expired", by simp, rfl⟩, rfl⟩
    intro r hr
    simp at hr

/-- C3 witness: a concrete run whose classification returns the past
deadline 2020-01-03 with today 2025-06-01 inserts only an "expired"
exclusion. -/
theorem c3_deadline_invariant_witness :
    envExpired.finalDateEnforce = "true" ∧
    UpsertEv.classified ⟨"active", "past deadline", some "2020-01-03"⟩ ∈
      (processItem envExpired "siteA" pageUrlC linksC st0 itemC).2 ∧
    ((∀ r, UpsertEv.processedInsert r ∉
        (processItem envExpired "siteA" pageUrlC linksC st0 itemC).2) ∧
     (∃ e, UpsertEv.exclusionInsert .deadline e ∈
        (processItem envExpired "siteA" pageUrlC linksC st0 itemC).2 ∧
        e.reason = "expired") ∧
     (processItem envExpired "siteA" pageUrlC linksC st0 itemC).1.newRows =
       st0.newRows) :=
  ⟨rfl, by decide,
   c3_deadline_invariant envExpired "siteA" pageUrlC linksC st0 itemC "2020-01-03"
     rfl ⟨"active", "past deadline", some "2020-01-03"⟩ (by decide) rfl
     (by decide) (by decide)⟩

/-! ## C6: which failures insert exclusions -/

/-- Every exclusion insert issued by a final-stage run comes from the
deadline gate with reason expired/unknown or from the scope gate with
reason out_of_scope. -/
theorem finalStage_excl_reasons (env : ScrapeEnv) (site page : String) (st : UpsertState)
    (t lt : String) (ft : Option String) (fu ftx : String) :
    ∀ stage e, UpsertEv.exclusionInsert stage e ∈
        (finalStage env site page st t lt ft fu ftx).2 →
      (stage = ExclStage.deadline ∧ (e.reason = "expired" ∨ e.reason = "unknown")) ∨
      (stage = ExclStage.scopeGate ∧ e.reason = "out_of_scope") := by
  intro stage e hmem
  simp only [finalStage] at hmem
  repeat' split at hmem
  all_goals
    simp only [List.mem_cons, List.mem_singleton, List.not_mem_nil, or_false] at hmem
  all_goals
    first
      | exact UpsertEv.noConfusion hmem
      | (rcases hmem with h | h
         · exact UpsertEv.noConfusion h
         · first
             | exact UpsertEv.noConfusion h
             | (injection h with h1 h2
                subst h1
                subst h2
                first
                  | (left
                     exact ⟨rfl, Or.inl rfl⟩)
                  | (left
                     exact ⟨rfl, Or.inr rfl⟩)
                  | (right
                     exact ⟨rfl, rfl⟩)))

/-- A run whose navigation always fails does nothing: no state change
and no insert events (transient skip). -/
theorem processItem_navfail (env : ScrapeEnv) (site page : String) (links : List Link)
    (st : UpsertState) (item : Item)
    (hnav : ∀ a b c, (pyTruthy (env.navigate a b c).1 &&
        pyTruthy (env.navigate a b c).2.2) = false) :
    processItem env site page links st item = (st, []) := by
  simp only [processItem, hnav]
  repeat' split
  all_goals first
    | rfl
    | simp_all

/-- A run whose navigation lands on a PDF whose text extraction raises
does nothing: no state change and no insert events (transient skip). -/
theorem processItem_pdffail (env : ScrapeEnv) (site page : String) (links : List Link)
    (st : UpsertState) (item : Item)
    (hpdf : ∀ a b c fu, (env.navigate a b c).1 = some fu → is_pdf fu = true)
    (hext : ∀ u, env.extractDetail u = none) :
    processItem env site page links st item = (st, []) := by
  have hpdf2 : ∀ a b c, pyTruthy (env.navigate a b c).1 = true →
      is_pdf ((env.navigate a b c).1.getD "") = true := by
    intro a b c h
    rcases hn : (env.navigate a b c).1 with _ | sv
    · simp [hn, pyTruthy] at h
    · exact hpdf a b c sv hn
  simp only [processItem, hext]
  repeat' split
  all_goals try rfl
  all_goals simp_all [hpdf2]

/-- When every loop-body run is a no-op skip, the whole upsert fold is
the identity. -/
theorem upsert_fold_const (env : ScrapeEnv) (site page : String) (links : List Link)
    (hstep : ∀ st item, processItem env site page links st item = (st, [])) :
    ∀ (items : List Item) (acc : UpsertState × List UpsertEv),
      items.foldl
        (fun acc item =>
          let r := processItem env site page links acc.1 item
          (r.1, acc.2 ++ r.2)) acc = acc := by
  intro items
  induction items with
  | nil => intro acc; rfl
  | cons i rest ih =>
    intro acc
    have h1 := hstep acc.1 i
    simp only [List.foldl_cons, h1, List.append_nil]
    exact ih acc

/-- C6 counterexample: the claim says an LLM call/parse failure never
inserts an exclusion row.  In `envScopeFail` the scope LLM call raises
on every input, yet the run inserts an rfp_exclusions row with reason
out_of_scope (`llm_ok` is set to False by the exception handler and the
scope gate fires). -/
theorem c6_counterexample :
    (∀ a b c, envScopeFail.scope a b c = none) ∧
    (∃ e, UpsertEv.exclusionInsert ExclStage.scopeGate e ∈
        (upsertNewItems envScopeFail "siteA" pageUrlC linksC st0 [itemC]).2 ∧
      e.reason = "out_of_scope") :=
  ⟨fun _ _ _ => rfl,
   ⟨⟨"RFP Xhttps://ex.org/final1", "RFP X", "siteA", "https://ex.org/listing",
     some "https://ex.org/final1", "out_of_scope", "2025-06-01T00:00:00Z"⟩,
    by decide, rfl⟩⟩

/-- C6 amended.  Exclusion rows are inserted exactly by the two
definitive gates: the deadline gate (reason expired/unknown — which
includes a final-classification LLM failure, normalized to "unknown")
and the scope gate (reason out_of_scope — which includes a scope-LLM
call/parse failure, treated as `in_scope = False`).  Navigation
failures, fetch errors and PDF-extraction errors never insert an
exclusion row: such items are skipped with no state change and remain
retryable. -/
theorem c6_exclusions_amended (env : ScrapeEnv) (site page : String)
    (links : List Link) (s0 : UpsertState) (items : List Item) :
    (∀ stage e, UpsertEv.exclusionInsert stage e ∈
        (upsertNewItems env site page links s0 items).2 →
      (stage = ExclStage.deadline ∧ (e.reason = "expired" ∨ e.reason = "unknown")) ∨
      (stage = ExclStage.scopeGate ∧ e.reason = "out_of_scope")) ∧
    ((∀ a b c, (pyTruthy (env.navigate a b c).1 &&
        pyTruthy (env.navigate a b c).2.2) = false) →
      (upsertNewItems env site page links s0 items).2 = []) ∧
    ((∀ a b c fu, (env.navigate a b c).1 = some fu → is_pdf fu = true) →
      (∀ u, env.extractDetail u = none) →
      (upsertNewItems env site page links s0 items).2 = []) := by
  refine ⟨?_, ?_, ?_⟩
  · intro stage e hmem
    rcases upsert_ev_mem env site page links items (s0, []) _ hmem with h | ⟨st, item, _, hev⟩
    · simp at h
    · revert hev
      refine processItem_cases env site page links st item
        (fun res => UpsertEv.exclusionInsert stage e ∈ res.2 →
          (stage = ExclStage.deadline ∧ (e.reason = "expired" ∨ e.reason = "unknown")) ∨
          (stage = ExclStage.scopeGate ∧ e.reason = "out_of_scope")) ?_ ?_
      · intro h; simp at h
      · intro t lt ft fu ftx h
        exact finalStage_excl_reasons env site page st t lt ft fu ftx stage e h
  · intro hnav
    have hstep : ∀ st item, processItem env site page links st item = (st, []) :=
      fun st item => processItem_navfail env site page links st item hnav
    simp only [upsertNewItems, upsert_fold_const env site page links hstep items (s0, [])]
  · intro hpdf hext
    have hstep : ∀ st item, processItem env site page links st item = (st, []) :=
      fun st item => processItem_pdffail env site page links st item hpdf hext
    simp only [upsertNewItems, upsert_fold_const env site page links hstep items (s0, [])]

/-- The out_of_scope exclusion row of the scope-failure fixture run. -/
def exclScopeC : ExclusionRow :=
  ⟨"RFP Xhttps://ex.org/final1", "RFP X", "siteA", "https://ex.org/listing",
   some "https://ex.org/final1", "out_of_scope", "2025-06-01T00:00:00Z"⟩

/-- C6 amended witness: the concrete exclusion insert of the
scope-failure run satisfies the gate/reason disjunction. -/
theorem c6_exclusions_amended_witness :
    UpsertEv.exclusionInsert ExclStage.scopeGate exclScopeC ∈
      (upsertNewItems envScopeFail "siteA" pageUrlC linksC st0 [itemC]).2 ∧
    ((ExclStage.scopeGate = ExclStage.deadline ∧
        (exclScopeC.reason = "expired" ∨ exclScopeC.reason = "unknown")) ∨
     (ExclStage.scopeGate = ExclStage.scopeGate ∧
        exclScopeC.reason = "out_of_scope")) :=
  ⟨by decide,
   (c6_exclusions_amended envScopeFail "siteA" pageUrlC linksC st0 [itemC]).1
     ExclStage.scopeGate exclScopeC (by decide)⟩

/-! ## C8: the generic-title predicate -/

/-- C8 counterexample: on "123456" the code returns True (fewer than
six alphabetic characters) while the claim's predicate returns False
(length ≥ 6, not boilerplate, no preamble), so the claimed
"exactly when" equivalence fails. -/
theorem c8_counterexample :
    _is_generic_title (some "123456") = true ∧
    claimGenericSpec (some "123456") = false := by
  constructor
  · decide
  · decide

/-- C8 amended: `_is_generic_title t` returns True exactly when `t` is
None or whitespace-blank, or — after stripping surrounding quotes and
the `(pdf)` marker from the lowercased, stripped string — the result is
in the boilerplate set, or is shorter than 4 characters, or begins with
a summary-preamble phrase, or contains fewer than 6 alphabetic
characters. -/
theorem c8_generic_title_amended :
    ∀ t, _is_generic_title t = amendedGenericSpec t := by
  intro t
  cases t with
  | none => rfl
  | some s =>
    simp only [_is_generic_title, amendedGenericSpec]
    repeat' split
    all_goals simp_all

/-! ## C9: retry backoff in _post_with_retries -/

/-- The sleep before the retry after failed attempt `n` (counting from
0): `min(2 ** attempt, 8) + random.random()`. -/
def backoffDelay (attempt : Nat) (jitterSample : ℚ) : ℚ :=
  min ((2 : ℚ) ^ attempt) 8 + jitterSample

/-- llm_utils._post_with_retries with the POST outcome as an oracle
(`succeeds n` = attempt `n` returns without raising and with a
non-retryable status) and the sampled jitter as an oracle.  Counts down
the remaining retries; returns whether a response was returned (false =
the last error is re-raised) and the list of sleeps performed. -/
def retryLoop (succeeds : Nat → Bool) (jitter : Nat → ℚ) (attempt : Nat) :
    Nat → Bool × List ℚ
  | 0 => (succeeds attempt, [])
  | r + 1 =>
    if succeeds attempt then (true, [])
    else
      let p := retryLoop succeeds jitter (attempt + 1) r
      (p.1, backoffDelay attempt (jitter attempt) :: p.2)

def _post_with_retries (succeeds : Nat → Bool) (jitter : Nat → ℚ) (retries : Nat) :
    Bool × List ℚ :=
  retryLoop succeeds jitter 0 retries

/-- C9 counterexample: at attempt n = 4 (reachable with a
caller-supplied retry count of 5) the code sleeps
`min(2^4, 8) + jitter = 8 + jitter`, never the claimed
`min(2^4, 10) + jitter = 10 + jitter` with jitter ≤ 1/2: with zero
jitter the sleep is 8, and no jitter in [0, 1/2] reconciles 8 with the
claimed formula. -/
theorem c9_counterexample :
    ((_post_with_retries (fun _ => false) (fun _ => 0) 5).2.getD 4 0 = 8) ∧
    ¬ ∃ j : ℚ, 0 ≤ j ∧ j ≤ 1 / 2 ∧
      (_post_with_retries (fun _ => false) (fun _ => 0) 5).2.getD 4 0 =
        min ((2 : ℚ) ^ 4) 10 + j := by
  have hv : (_post_with_retries (fun _ => false) (fun _ => 0) 5).2.getD 4 0 = 8 := by
    norm_num [_post_with_retries, retryLoop, backoffDelay]
  refine ⟨hv, ?_⟩
  rintro ⟨j, hj0, hj1, hj⟩
  rw [hv] at hj
  have : min ((2 : ℚ) ^ 4) 10 = 10 := by norm_num
  rw [this] at hj
  linarith

/-- Generalized shape of the retry loop from any starting attempt:
at most `r` sleeps, the k-th sleep is `min(2^(a+k), 8) + jitter (a+k)`,
and the error is re-raised exactly when attempts `a..a+r` all fail. -/
theorem retryLoop_spec (succeeds : Nat → Bool) (jitter : Nat → ℚ) :
    ∀ (r a : Nat),
      (retryLoop succeeds jitter a r).2.length ≤ r ∧
      (∀ k, k < (retryLoop succeeds jitter a r).2.length →
        (retryLoop succeeds jitter a r).2.getD k 0 =
          backoffDelay (a + k) (jitter (a + k))) ∧
      ((retryLoop succeeds jitter a r).1 = false ↔
        ∀ n, a ≤ n → n ≤ a + r → succeeds n = false) := by
  intro r
  induction r with
  | zero =>
    intro a
    refine ⟨Nat.le_refl 0, ?_, ?_⟩
    · intro k hk; simp [retryLoop] at hk
    · simp only [retryLoop]
      constructor
      · intro h n h1 h2
        have : n = a := Nat.le_antisymm (by simpa using h2) h1
        subst this
        simpa using h
      · intro h
        simpa using h a (Nat.le_refl a) (by simp)
  | succ r ih =>
    intro a
    obtain ⟨ihl, ihk, ihb⟩ := ih (a + 1)
    by_cases hs : succeeds a = true
    · have hstep : retryLoop succeeds jitter a (r + 1) = (true, []) := by
        simp [retryLoop, hs]
      refine ⟨by simp [hstep], ?_, ?_⟩
      · intro k hk; rw [hstep] at hk; simp at hk
      · rw [hstep]
        constructor
        · intro h; exact absurd h (by simp)
        · intro h
          exfalso
          have h2 := h a (Nat.le_refl a) (Nat.le_add_right a (r + 1))
          rw [hs] at h2
          exact Bool.noConfusion h2
    · have hs' : succeeds a = false := by simpa using hs
      have hstep : retryLoop succeeds jitter a (r + 1) =
          ((retryLoop succeeds jitter (a + 1) r).1,
           backoffDelay a (jitter a) :: (retryLoop succeeds jitter (a + 1) r).2) := by
        simp [retryLoop, hs']
      refine ⟨?_, ?_, ?_⟩
      · rw [hstep]
        simpa using Nat.succ_le_succ ihl
      · intro k hk
        rw [hstep] at hk ⊢
        cases k with
        | zero => simp
        | succ k' =>
          simp only [List.length_cons, Nat.succ_lt_succ_iff] at hk
          have hv := ihk k' hk
          have harg : a + 1 + k' = a + (k' + 1) := by omega
          rw [harg] at hv
          simpa using hv
      · rw [hstep]
        have hfst :
            ((retryLoop succeeds jitter (a + 1) r).1,
             backoffDelay a (jitter a) :: (retryLoop succeeds jitter (a + 1) r).2).1 =
              (retryLoop succeeds jitter (a + 1) r).1 := rfl
        rw [hfst, ihb]
        constructor
        · intro h n h1 h2
          rcases Nat.eq_or_lt_of_le h1 with rfl | hlt
          · exact hs'
          · exact h n (by omega) (by omega)
        · intro h n h1 h2
          exact h n (by omega) (by omega)

/-- C9 amended.  In _post_with_retries, at most `retries` sleeps are
performed after the first attempt; the sleep after failed attempt `n`
equals `min(2^n, 8)` seconds plus the sampled jitter (which
`random.random()` draws from [0, 1), not [0, 0.5]); and the last error
is re-raised exactly when all `retries + 1` attempts fail. -/
theorem c9_backoff_amended (succeeds : Nat → Bool) (jitter : Nat → ℚ) (retries : Nat) :
    (_post_with_retries succeeds jitter retries).2.length ≤ retries ∧
    (∀ k, k < (_post_with_retries succeeds jitter retries).2.length →
      (_post_with_retries succeeds jitter retries).2.getD k 0 =
        min ((2 : ℚ) ^ k) 8 + jitter k) ∧
    ((_post_with_retries succeeds jitter retries).1 = false ↔
      ∀ n, n ≤ retries → succeeds n = false) := by
  obtain ⟨hl, hk, hb⟩ := retryLoop_spec succeeds jitter retries 0
  refine ⟨hl, ?_, ?_⟩
  · intro k hkl
    have := hk k hkl
    simpa [backoffDelay] using this
  · rw [show _post_with_retries succeeds jitter retries =
        retryLoop succeeds jitter 0 retries from rfl, hb]
    constructor
    · intro h n hn; exact h n (Nat.zero_le n) (by simpa using hn)
    · intro h n _ hn; exact h n (by simpa using hn)

/-- C9 amended witness: with always-failing attempts, retry count 2 and
jitter 1/4, the second sleep is `min(2,8) + 1/4`. -/
theorem c9_backoff_amended_witness :
    (1 < (_post_with_retries (fun _ => false) (fun _ => (1 : ℚ) / 4) 2).2.length) ∧
    (_post_with_retries (fun _ => false) (fun _ => (1 : ℚ) / 4) 2).2.getD 1 0 =
      min ((2 : ℚ) ^ 1) 8 + 1 / 4 :=
  ⟨by norm_num [_post_with_retries, retryLoop],
   (c9_backoff_amended (fun _ => false) (fun _ => (1 : ℚ) / 4) 2).2.1 1
     (by norm_num [_post_with_retries, retryLoop])⟩

/-! ## C4: navigate_to_final and its hop budget -/

/-- The raw JSON dict of one navigation-LLM decision (fields `none`
when absent or not of the expected type). -/
structure NavRaw where
  status : Option String
  final_title : Option String
  final_url : Option String
  next_link_index : Option Int
  deriving DecidableEq, Repr

/-- External world of navigate_to_final: `fetch` is
_fetch_links_and_text (text and gathered links), `extractDetail` is
detail_extractor.extract_detail, `llm` is the NAV-prompt call plus JSON
parse at a given URL and hop counter; `none` = a raised exception. -/
structure NavEnv where
  fetch : String → Option (String × List Link)
  extractDetail : String → Option (Option String × Option String)
  llm : String → Nat → Option NavRaw

/-- Outcome of one loop iteration: terminate with the function's result
triple, or continue to a next URL. -/
inductive NavStepRes where
  | done (res : Option (String × String × String))
  | next (nxt : String)
  deriving DecidableEq, Repr

/-- The `final`-status tail: try extract_detail on the declared URL,
then the declared-PDF path, then same-as-current, then a plain fetch. -/
def navFinalTail (env : NavEnv) (cur page_text fu ftitle2 : String) : NavStepRes :=
  if is_pdf fu then
    match env.extractDetail fu with
    | some ed =>
      if pyTruthy ed.1 && pyTruthy ed.2 then
        .done (some (ed.2.getD "", ftitle2, ed.1.getD ""))
      else .done (some (fu, ftitle2, page_text))
    | none => .done (some (fu, ftitle2, page_text))
  else if fu = cur then .done (some (fu, ftitle2, page_text))
  else
    match env.fetch fu with
    | some pr2 => .done (some (fu, ftitle2, pr2.1))
    | none => .done none

/-- The body of one hop of navigate_to_final after the current page has
been fetched: the direct-PDF check, then the LLM decision dispatch
(`final` / `give_up` / `expired` / `continue` / unknown). -/
def navStep (env : NavEnv) (cur : String) (hop : Nat) (page_text : String)
    (page_links : List Link) (ftitle : Option String) : NavStepRes :=
  if is_pdf cur then
    match env.extractDetail cur with
    | some ed =>
      if pyTruthy ed.1 && pyTruthy ed.2 then
        .done (some (ed.2.getD "", pyOr ftitle "(PDF)", ed.1.getD ""))
      else .done (some (cur, pyOr ftitle "(PDF)", page_text))
    | none => .done (some (cur, pyOr ftitle "(PDF)", page_text))
  else
    match env.llm cur hop with
    | none => .done none
    | some dec =>
      let status := pyLower (dec.status.getD "")
      if status = "final" then
        let fu := pyStrip (pyOr dec.final_url cur)
        let ftitle2 :=
          if pyStrip (dec.final_title.getD "") ≠ "" then
            pyStrip (dec.final_title.getD "")
          else pyOr ftitle "(untitled RFP)"
        match env.extractDetail fu with
        | some ed =>
          if pyTruthy ed.1 && pyTruthy ed.2 then
            .done (some (ed.2.getD "", ftitle2, ed.1.getD ""))
          else if pyTruthy ed.1 then
            .done (some (fu, ftitle2, ed.1.getD ""))
          else navFinalTail env cur page_text fu ftitle2
        | none => navFinalTail env cur page_text fu ftitle2
      else if status = "give_up" then .done none
      else if status = "expired" then .done none
      else if status = "continue" then
        match dec.next_link_index with
        | some idx =>
          if decide (0 ≤ idx) && decide (idx < (page_links.length : Int)) then
            let nxt := (page_links.getD idx.toNat ⟨none, none⟩).href.getD ""
            if is_pdf nxt then
              match env.extractDetail nxt with
              | some ed =>
                if pyTruthy ed.2 && pyTruthy ed.1 then
                  .done (some (ed.2.getD "",
                    pyOr (page_links.getD idx.toNat ⟨none, none⟩).text "(PDF)",
                    ed.1.getD ""))
                else .next nxt
              | none => .done none
            else .next nxt
          else .done none
        | none => .done none
      else .done none

/-- The hop loop of navigate_to_final, instrumented with the list of
current URLs examined (those that pass the visited check, in order):
`remaining` is the number of loop iterations left, `hop` the 1-based
hop counter.  A repeated URL terminates immediately with the failure
triple (modelled as `none`) and examines nothing further. -/
def navAux (env : NavEnv) (ftitle : Option String) :
    Nat → Nat → String → List String →
      Option (String × String × String) × List String
  | 0, _, _, _ => (none, [])
  | r + 1, hop, cur, visited =>
    if visited.contains cur then (none, [])
    else
      match env.fetch cur with
      | none => (none, [cur])
      | some pr =>
        match navStep env cur hop pr.1 pr.2 ftitle with
        | .done res => (res, [cur])
        | .next nxt =>
          let p := navAux env ftitle r (hop + 1) nxt (cur :: visited)
          (p.1, cur :: p.2)

/-- bedrock_scrape.navigate_to_final: seed the title with
`(initial_link_text or initial_title) or None` and run the hop loop
from an empty visited set. -/
def navigate_to_final (env : NavEnv) (start_url : String) (max_hops : Nat)
    (initial_title initial_link_text : Option String) :
    Option (String × String × String) × List String :=
  let ftitle : Option String :=
    if pyTruthy initial_link_text then initial_link_text
    else if pyTruthy initial_title then initial_title
    else none
  navAux env ftitle max_hops 1 start_url []

/-- The hop loop examines at most `remaining` URLs. -/
theorem navAux_length (env : NavEnv) (ftitle : Option String) :
    ∀ (r hop : Nat) (cur : String) (visited : List String),
      (navAux env ftitle r hop cur visited).2.length ≤ r := by
  intro r
  induction r with
  | zero => intro hop cur visited; simp [navAux]
  | succ r ih =>
    intro hop cur visited
    simp only [navAux]
    split
    · simp
    · split
      · simp
      · split
        · simp
        · simpa using ih (hop + 1) _ _

/-- The examined URLs are pairwise distinct and disjoint from the
incoming visited set: each hop adds its URL to `visited` before
continuing and the loop head rejects any URL already in it. -/
theorem navAux_nodup (env : NavEnv) (ftitle : Option String) :
    ∀ (r hop : Nat) (cur : String) (visited : List String),
      (navAux env ftitle r hop cur visited).2.Nodup ∧
      ∀ u ∈ (navAux env ftitle r hop cur visited).2, u ∉ visited := by
  intro r
  induction r with
  | zero => intro hop cur visited; simp [navAux]
  | succ r ih =>
    intro hop cur visited
    simp only [navAux]
    split
    · simp
    · rename_i hvis
      have hcur : cur ∉ visited := by
        simpa using hvis
      split
      · simpa using hcur
      · split
        · simpa using hcur
        · obtain ⟨ihnd, ihdisj⟩ := ih (hop + 1) _ (cur :: visited)
          constructor
          · simp only [List.nodup_cons]
            refine ⟨?_, ihnd⟩
            intro hmem
            exact ihdisj _ hmem (List.mem_cons_self _ _)
          · intro u hu
            simp only [List.mem_cons] at hu
            rcases hu with rfl | hu
            · exact hcur
            · intro huv
              exact ihdisj u hu (List.mem_cons_of_mem _ huv)

/-- A hop whose current URL was already visited terminates at once with
the failure triple, fetching nothing. -/
theorem navAux_repeat (env : NavEnv) (ftitle : Option String)
    (r hop : Nat) (cur : String) (visited : List String) (h : cur ∈ visited) :
    navAux env ftitle (r + 1) hop cur visited = (none, []) := by
  simp [navAux, h]

/-- C4 (Bounded navigation).  For every starting URL and `max_hops ≥ 1`
the hop loop of navigate_to_final terminates after examining at most
`max_hops` URLs; the examined URLs are pairwise distinct (each is added
to the visited set before the loop proceeds); and a hop whose current
URL is already in the visited set returns the failure triple
immediately without fetching it. -/
theorem c4_bounded_navigation (env : NavEnv) (start_url : String) (max_hops : Nat)
    (initial_title initial_link_text : Option String) (h : 1 ≤ max_hops) :
    (navigate_to_final env start_url max_hops initial_title initial_link_text).2.length
        ≤ max_hops ∧
    (navigate_to_final env start_url max_hops initial_title initial_link_text).2.Nodup ∧
    (∀ (ft : Option String) (r hop : Nat) (cur : String) (visited : List String),
      cur ∈ visited →
      navAux env ft (r + 1) hop cur visited = (none, [])) := by
  refine ⟨?_, ?_, ?_⟩
  · exact navAux_length env _ max_hops 1 start_url []
  · exact (navAux_nodup env _ max_hops 1 start_url []).1
  · intro ft r hop cur visited hv
    exact navAux_repeat env ft r hop cur visited hv

/-- A tiny concrete navigation world: the LLM immediately declares the
current page final and extraction returns its text. -/
def navEnvC : NavEnv where
  fetch := fun _ => some ("page text", [])
  extractDetail := fun _ => some (some "body text", none)
  llm := fun _ _ => some ⟨some "final", some "T Final RFP", some "", none⟩

/-- C4 witness: a concrete run with `max_hops = 2` examines at most two
URLs. -/
theorem c4_bounded_navigation_witness :
    1 ≤ 2 ∧
    (navigate_to_final navEnvC "https://n.org/a" 2 none none).2.length ≤ 2 :=
  ⟨by decide,
   (c4_bounded_navigation navEnvC "https://n.org/a" 2 none none (by decide)).1⟩

/-! ## C5 and C10: the scheduler tick (service.check_and_run_schedule)

Times are rationals (hours since an arbitrary epoch); the float
`interval_hours` and the timestamps are modelled exactly.  The
`next_run_at` advancement `while new_next <= now: new_next +=
timedelta(hours=interval_hours)` is given structural fuel; `none`
models a tick that is still inside the while loop (it never reaches
the commit, holding the row lock). -/

/-- The scrape_config singleton row as the tick reads it. -/
structure SchedState where
  enabled : Bool
  intervalHours : ℚ
  nextRunAt : Option ℚ
  lastRunAt : Option ℚ
  deriving DecidableEq, Repr

/-- The advancement loop: keep adding `interval` while the candidate is
≤ now; `none` = the fuel ran out before the loop exited. -/
def advanceLoop (now interval : ℚ) : Nat → ℚ → Option ℚ
  | 0, cur => if now < cur then some cur else none
  | fuel + 1, cur =>
    if now < cur then some cur
    else advanceLoop now interval fuel (cur + interval)

/-- Events of one tick, in order: the transaction commit (with the row
state it commits) and, for a claimed run, the pipeline execution that
follows it. -/
inductive TickEv where
  | commit (row : Option SchedState)
  | runPipeline
  deriving DecidableEq, Repr

/-- One scheduler tick (the body of check_and_run_schedule inside the
`engine.begin()` transaction, plus the post-commit pipeline run): if
the singleton row exists, is enabled, has a `next_run_at` and
`now ≥ next_run_at`, advance `next_run_at` past now, set
`last_run_at = now`, commit, then run the pipeline; otherwise commit
the unchanged row and run nothing. -/
def schedTick (fuel : Nat) (row : Option SchedState) (now : ℚ) :
    Option (Option SchedState × List TickEv) :=
  match row with
  | none => some (none, [.commit none])
  | some st =>
    if !st.enabled then some (some st, [.commit (some st)])
    else
      match st.nextRunAt with
      | none => some (some st, [.commit (some st)])
      | some nr =>
        if nr ≤ now then
          match advanceLoop now st.intervalHours fuel (nr + st.intervalHours) with
          | none => none
          | some newNext =>
            let st' := { st with nextRunAt := some newNext, lastRunAt := some now }
            some (some st', [.commit (some st'), .runPipeline])
        else some (some st, [.commit (some st)])

/-- advanceLoop reaches the least multiple that clears `now` when given
enough fuel. -/
theorem advanceLoop_eq (now interval : ℚ) :
    ∀ (k fuel : Nat) (cur : ℚ),
      now < cur + k * interval →
      (∀ j : Nat, j < k → ¬ now < cur + j * interval) →
      k ≤ fuel →
      advanceLoop now interval fuel cur = some (cur + k * interval) := by
  intro k
  induction k with
  | zero =>
    intro fuel cur hk _ _
    have hcur : now < cur := by simpa using hk
    cases fuel with
    | zero => simp [advanceLoop, hcur]
    | succ f => simp [advanceLoop, hcur]
  | succ k' ih =>
    intro fuel cur hk hmin hfuel
    have hncur : ¬ now < cur := by
      have := hmin 0 (Nat.succ_pos k')
      simpa using this
    cases fuel with
    | zero => omega
    | succ f =>
      simp only [advanceLoop, if_neg hncur]
      have hk' : now < (cur + interval) + k' * interval := by
        have : ((k' : ℚ) + 1) * interval = k' * interval + interval := by ring
        push_cast at hk
        push_cast
        linarith [hk]
      have hmin' : ∀ j : Nat, j < k' → ¬ now < (cur + interval) + j * interval := by
        intro j hj
        have := hmin (j + 1) (by omega)
        push_cast at this
        push_cast
        intro hcon
        apply this
        linarith
      have := ih f (cur + interval) hk' hmin' (by omega)
      rw [this]
      congr 1
      push_cast
      ring

/-- With a non-positive interval and a candidate already ≤ now, the
advancement loop never exits, whatever the fuel. -/
theorem advanceLoop_diverges (now interval : ℚ) (hint : interval ≤ 0) :
    ∀ (fuel : Nat) (cur : ℚ), cur ≤ now →
      advanceLoop now interval fuel cur = none := by
  intro fuel
  induction fuel with
  | zero =>
    intro cur hcur
    simp [advanceLoop, not_lt.mpr hcur]
  | succ f ih =>
    intro cur hcur
    simp only [advanceLoop, if_neg (not_lt.mpr hcur)]
    exact ih (cur + interval) (by linarith)

/-- The committed row of a claimed tick: `next_run_at` advanced,
`last_run_at = now`. -/
def claimedState (st : SchedState) (newNext now : ℚ) : SchedState :=
  { st with
    nextRunAt := some newNext
    lastRunAt := some now }

/-- C5 (Scheduler claim).  On a tick where the singleton row exists,
`enabled` is true, `next_run_at = nr` is set and `now ≥ nr` (with a
positive interval, so the advancement terminates): for the least
`k ≥ 1` making `nr + k·interval > now`, the committed row has
`next_run_at = nr + k·interval` and `last_run_at = now`, and the
pipeline runs strictly after the commit (the event list is
`[commit, runPipeline]`).  A tick with `enabled` false, or with
`now < next_run_at`, commits the row unchanged and runs nothing. -/
theorem c5_scheduler_tick (st : SchedState) (now : ℚ) :
    (∀ nr, st.enabled = true → st.nextRunAt = some nr → nr ≤ now →
      0 < st.intervalHours →
      ∃ (fuel k : Nat), 1 ≤ k ∧
        now < nr + k * st.intervalHours ∧
        (∀ j : Nat, 1 ≤ j → now < nr + j * st.intervalHours → k ≤ j) ∧
        schedTick fuel (some st) now =
          some (some (claimedState st (nr + k * st.intervalHours) now),
            [.commit (some (claimedState st (nr + k * st.intervalHours) now)),
             .runPipeline])) ∧
    (st.enabled = false → ∀ fuel,
      schedTick fuel (some st) now = some (some st, [.commit (some st)])) ∧
    (∀ nr fuel, st.nextRunAt = some nr → now < nr →
      schedTick fuel (some st) now = some (some st, [.commit (some st)])) := by
  refine ⟨?_, ?_, ?_⟩
  · intro nr hen hnr hle hpos
    have hex : ∃ m : Nat, now < (nr + st.intervalHours) + m * st.intervalHours := by
      obtain ⟨n, hn⟩ := exists_nat_gt ((now - (nr + st.intervalHours)) / st.intervalHours)
      refine ⟨n, ?_⟩
      have := (div_lt_iff hpos).mp hn
      linarith
    classical
    have hm0 : now < (nr + st.intervalHours) + (Nat.find hex) * st.intervalHours :=
      Nat.find_spec hex
    have hm0min : ∀ j : Nat, j < Nat.find hex →
        ¬ now < (nr + st.intervalHours) + j * st.intervalHours :=
      fun j hj => Nat.find_min hex hj
    refine ⟨Nat.find hex, Nat.find hex + 1, by omega, ?_, ?_, ?_⟩
    · push_cast
      push_cast at hm0
      linarith
    · intro j hj hjlt
      cases j with
      | zero => omega
      | succ m =>
        have hpm : now < (nr + st.intervalHours) + m * st.intervalHours := by
          push_cast at hjlt
          push_cast
          linarith
        have := Nat.find_min' hex hpm
        omega
    · have hadv := advanceLoop_eq now st.intervalHours (Nat.find hex) (Nat.find hex)
        (nr + st.intervalHours) hm0 hm0min (Nat.le_refl _)
      have hval : (nr + st.intervalHours) + (Nat.find hex) * st.intervalHours =
          nr + ((Nat.find hex) + 1 : Nat) * st.intervalHours := by
        push_cast
        ring
      simp only [schedTick, hen, Bool.not_true, Bool.false_eq_true, if_false, hnr,
        if_pos hle, hadv, hval, claimedState]
  · intro hen fuel
    simp [schedTick, hen]
  · intro nr fuel hnr hlt
    have hnle : ¬ nr ≤ now := not_le.mpr hlt
    by_cases he : st.enabled = true
    · simp [schedTick, hnr, he, hnle]
    · simp [schedTick, he]

/-- C5 witness: with `next_run_at = 1` and `now = 0` the tick commits
the row unchanged and does not run the pipeline. -/
theorem c5_scheduler_tick_witness :
    schedTick 0 (some ⟨true, (1 : ℚ), some 1, none⟩) 0 =
      some (some ⟨true, (1 : ℚ), some 1, none⟩,
        [TickEv.commit (some ⟨true, (1 : ℚ), some 1, none⟩)]) :=
  (c5_scheduler_tick ⟨true, (1 : ℚ), some 1, none⟩ 0).2.2 1 0 rfl (by norm_num)

/-- C10 (implicit).  The advancement loop terminates only under
`interval_hours > 0`: when the stored `interval_hours` is zero or
negative (nothing guards the database value — the Pydantic `gt=0`
validation runs only on the PUT /schedule payload) and
`next_run_at ≤ now` on an enabled row, the tick never completes for
any fuel — the while loop runs forever, inside the transaction that
holds the `SELECT ... FOR UPDATE` row lock. -/
theorem c10_nonpositive_interval_divergence (st : SchedState) (now nr : ℚ)
    (hen : st.enabled = true) (hnr : st.nextRunAt = some nr) (hle : nr ≤ now)
    (hint : st.intervalHours ≤ 0) :
    ∀ fuel, schedTick fuel (some st) now = none := by
  intro fuel
  have hdiv := advanceLoop_diverges now st.intervalHours hint fuel
    (nr + st.intervalHours) (by linarith)
  simp [schedTick, hen, hnr, hle, hdiv]

/-- C10 witness: interval 0, `next_run_at = now = 0`: the tick with
fuel 5 (or any fuel) does not complete. -/
theorem c10_nonpositive_interval_divergence_witness :
    schedTick 5 (some ⟨true, (0 : ℚ), some 0, none⟩) 0 = none :=
  c10_nonpositive_interval_divergence ⟨true, (0 : ℚ), some 0, none⟩ 0 0
    rfl rfl (by norm_num) (by norm_num) 5

/-! ## C2: the dispatcher's crawl set -/

/-- A website_settings row. -/
structure Website where
  id : Int
  name : String
  url : String
  enabled : Bool
  deriving DecidableEq, Repr

inductive PyErr where
  | attributeError
  deriving DecidableEq, Repr

/-- configuration_values.py: the `get_websites` static method is
commented out (its block is marked DEPRECATED and directs callers to
the website_settings table served by the admin API), so the attribute
does not exist on the class: `none` models the absent attribute. -/
def ConfigurationValues_get_websites : Option (List (String × String)) := none

/-- The site loop of main.main (main.py): iterate
`ConfigurationValues.get_websites()`, passing each site's URL to
process_listing.  Accessing the missing attribute raises
AttributeError before any site is processed; the loop head is not
inside a try block, so main() propagates the error.  Returns the
`(site_name, url)` pairs passed to process_listing, or the raised
error. -/
def mainListingCalls : Except PyErr (List (String × String)) :=
  match ConfigurationValues_get_websites with
  | none => .error .attributeError
  | some ws => .ok ws

/-- The crawl set the claim prescribes: the enabled rows of
website_settings, in row order. -/
def enabledWebsites (db : List Website) : List Website :=
  db.filter (fun w => w.enabled)

/-- C2 evaluated on the code: whatever website_settings contains, the
dispatcher never reads it — main.main calls the commented-out
`ConfigurationValues.get_websites()` and raises AttributeError, so no
listing page is ever passed to process_listing; in particular whenever
the table has an enabled row, the set of processed listing pages is
not the set of enabled rows. -/
theorem c2_dispatcher_reads_no_websites (db : List Website) :
    mainListingCalls = Except.error PyErr.attributeError ∧
    (enabledWebsites db ≠ [] →
      ¬ ∃ calls, mainListingCalls = Except.ok calls ∧
        calls.map Prod.snd = (enabledWebsites db).map (fun w => w.url)) := by
  refine ⟨rfl, ?_⟩
  rintro _ ⟨calls, hcalls, -⟩
  exact Except.noConfusion hcalls

/-- C2 witness: a website_settings table with one enabled row, on which
the dispatcher still processes nothing. -/
theorem c2_dispatcher_reads_no_websites_witness :
    enabledWebsites
        [⟨1, "nnphi", "https://nnphi.org/news/funding-announcements/", true⟩] ≠ [] ∧
    mainListingCalls = Except.error PyErr.attributeError :=
  ⟨by decide,
   (c2_dispatcher_reads_no_websites
     [⟨1, "nnphi", "https://nnphi.org/news/funding-announcements/", true⟩]).1⟩

end Smartmatch
